import Mathlib

/-!
Verification development for the blocking multi-producer/multi-consumer FIFO
queue of this repository.

The main implementation is src/queue.c; the repository also contains the
variant implementations src/unnamed/part_000 .. part_004 of the same
interface (initQueue, destroyQueue, enqueue, dequeue, tryDequeue, size,
waiting, visited).

Embedding conventions:
* The intrusive singly linked lists (DataNode / ThreadNode chains reachable
  from the front pointer) are modelled as Lean lists whose head is the C
  front pointer.  The rear pointer always points at the last chain node in
  well-formed states, so appending at rear is modelled by list append; the
  NULL-ness of the rear pointer, which the code manipulates separately from
  the chain, is tracked by an explicit Boolean field (true = rear == NULL).
* The atomic_ulong counters are modelled as Nat.  Every decrement performed
  by the code is guarded by a non-zero check on the same counter (or by
  should_thread_wait returning false, which forces size != 0), so Nat
  truncated subtraction and the C unsigned wrap-around agree on all states
  the theorems are about.
* int values (data_index, wait_condition, and the -1 sentinel of
  fetch_first_thread_wait_condition) are modelled as Int.
* void* payloads are a type parameter.  Thread identities (thrd_t) are
  modelled as Nat, with thrd_equal as equality.
* The single mutex serialises whole critical sections, so each
  lock-protected region of the C code is one atomic state transformation.
  the cnd_wait suspension in dequeue is the boundary between such regions.
-/

/-- DataNode of src/queue.c lines 14-18: one pending payload with the
sequence index assigned at enqueue time. -/
structure DataNode (α : Type) where
  data_index : Int
  data_pointer : α
deriving DecidableEq, Repr

/-- ThreadNode of src/queue.c lines 6-12: one blocked consumer record.
The per-node condition variable is identified with the node itself. -/
structure ThreadNode where
  thread_id : Nat
  is_terminated : Bool
  wait_condition : Int
deriving DecidableEq, Repr

/-- Combined global state of src/queue.c: DataQueue data_in_queue
(lines 26-33) and ThreadQueue threads_waiting (lines 20-24).
d_rear_null / t_rear_null record whether the respective rear pointer is
NULL. -/
structure QState (α : Type) where
  items : List (DataNode α)
  d_rear_null : Bool
  size : Nat
  count_visited : Nat
  count_enqueued : Nat
  waiters : List ThreadNode
  t_rear_null : Bool
  count_waiting : Nat
deriving DecidableEq, Repr

/-- initQueue, src/queue.c lines 54-64: both lists empty, all counters
zero, both rear pointers NULL. -/
def initQueue (α : Type) : QState α :=
  { items := [], d_rear_null := true, size := 0, count_visited := 0,
    count_enqueued := 0, waiters := [], t_rear_null := true,
    count_waiting := 0 }

/-- generate_data_node, src/queue.c lines 107-113: allocates the node,
stores the payload, and takes the next sequence index from
atomic_fetch_add(count_enqueued, 1), which returns the value before the
increment.  Returns the node together with the state after the fetch_add. -/
def generate_data_node (x : α) (s : QState α) : DataNode α × QState α :=
  ({ data_index := (s.count_enqueued : Int), data_pointer := x },
   { s with count_enqueued := s.count_enqueued + 1 })

/-- insert_into_empty_data_queue, src/queue.c lines 123-127: front and rear
are both set to the new node. -/
def insert_into_empty_data_queue (n : DataNode α) (s : QState α) : QState α :=
  { s with items := [n], d_rear_null := false, size := s.size + 1 }

/-- insert_into_filled_data_queue, src/queue.c lines 129-133: the node is
linked after rear and becomes the new rear. -/
def insert_into_filled_data_queue (n : DataNode α) (s : QState α) : QState α :=
  { s with items := s.items ++ [n], d_rear_null := false, size := s.size + 1 }

/-- insert_data_node, src/queue.c lines 115-121: dispatch on size == 0. -/
def insert_data_node (n : DataNode α) (s : QState α) : QState α :=
  if s.size = 0 then insert_into_empty_data_queue n s
  else insert_into_filled_data_queue n s

/-- The locked region of enqueue, src/queue.c lines 96-100. -/
def enqueue (x : α) (s : QState α) : QState α :=
  insert_data_node (generate_data_node x s).1 (generate_data_node x s).2

/-- The possible wake-up actions an operation can perform on blocked
consumers after (or while) updating the queue state. -/
inductive WakeAction where
  | noWake
  | signalFront (w : ThreadNode)
  | broadcastAll
  | nullFrontDeref
deriving DecidableEq, Repr

/-- The signalling tail of enqueue, src/queue.c lines 102-104: after the
unlock, if size > 0 and count_waiting > 0, cnd_signal the condition
variable of the ThreadNode at the front of threads_waiting.  Reading
front while it is NULL would be a NULL dereference, recorded as
nullFrontDeref. -/
def enqueue_signal_decision (s : QState α) : WakeAction :=
  if 0 < s.size ∧ 0 < s.count_waiting then
    match s.waiters with
    | [] => WakeAction.nullFrontDeref
    | w :: _ => WakeAction.signalFront w
  else WakeAction.noWake

/-- fetch_first_thread_wait_condition, src/queue.c lines 175-182: walk the
waiter list from the front and return the wait_condition of the first
record whose thread_id is the calling thread; -1 if none is found. -/
def fetch_first_thread_wait_condition (tid : Nat) : List ThreadNode → Int
  | [] => -1
  | w :: rest =>
    if w.thread_id = tid then w.wait_condition
    else fetch_first_thread_wait_condition tid rest

/-- should_thread_wait, src/queue.c lines 164-173.  The final comparison
dereferences data_in_queue.front; in the (unreachable under the size
invariant) case size != 0 with an empty chain the model returns true. -/
def should_thread_wait (tid : Nat) (s : QState α) : Bool :=
  if s.size = 0 then true
  else if s.count_waiting ≤ s.size then false
  else
    match s.items with
    | [] => true
    | n :: _ => decide (fetch_first_thread_wait_condition tid s.waiters > n.data_index)

/-- The head-item removal shared by dequeue (src/queue.c lines 151-157) and
tryDequeue (lines 235-241): advance front, reset rear to NULL if front
became NULL, decrement size, increment count_visited. -/
def remove_front_data_node (s : QState α) : QState α :=
  { s with items := s.items.tail,
           d_rear_null := if s.items.tail.isEmpty then true else s.d_rear_null,
           size := s.size - 1,
           count_visited := s.count_visited + 1 }

/-- A completed dequeue call, src/queue.c lines 135-162, for a caller that
does not have to wait: when should_thread_wait is false on entry the while
loop body never runs and the head item is removed and returned.  A none
result marks a call that would instead suspend in cnd_wait (lines 137-149);
with no other thread to wake it such a call never completes, so the none
case carries no final state.  The inner [] case is the NULL dereference of
front (unreachable when size = items.length). -/
def dequeue (tid : Nat) (s : QState α) : Option (α × QState α) :=
  if should_thread_wait tid s then none
  else
    match s.items with
    | [] => none
    | n :: _ => some (n.data_pointer, remove_front_data_node s)

/-- tryDequeue, src/queue.c lines 229-246: fail fast when size == 0 or
front == NULL, otherwise remove the head item exactly as dequeue does.
The first component models the bool result together with the *element out
parameter. -/
def tryDequeue (s : QState α) : Option α × QState α :=
  if s.size = 0 then (none, s)
  else
    match s.items with
    | [] => (none, s)
    | n :: _ => (some n.data_pointer, remove_front_data_node s)

/-- generate_thread_node, src/queue.c lines 219-227: a fresh record for the
calling thread, not terminated, whose wait_condition is
count_enqueued + count_waiting read at creation time. -/
def generate_thread_node (tid : Nat) (s : QState α) : ThreadNode :=
  { thread_id := tid, is_terminated := false,
    wait_condition := ((s.count_enqueued + s.count_waiting : Nat) : Int) }

/-- insert_into_empty_thread_queue, src/queue.c lines 207-211. -/
def insert_into_empty_thread_queue (n : ThreadNode) (s : QState α) : QState α :=
  { s with waiters := [n], t_rear_null := false,
           count_waiting := s.count_waiting + 1 }

/-- insert_into_filled_thread_queue, src/queue.c lines 213-217. -/
def insert_into_filled_thread_queue (n : ThreadNode) (s : QState α) : QState α :=
  { s with waiters := s.waiters ++ [n], t_rear_null := false,
           count_waiting := s.count_waiting + 1 }

/-- insert_thread_node, src/queue.c lines 199-205: dispatch on
count_waiting == 0. -/
def insert_thread_node (n : ThreadNode) (s : QState α) : QState α :=
  if s.count_waiting = 0 then insert_into_empty_thread_queue n s
  else insert_into_filled_thread_queue n s

/-- enqueue_thread, src/queue.c lines 184-187: register a WaitRecord for
the calling thread. -/
def enqueue_thread (tid : Nat) (s : QState α) : QState α :=
  insert_thread_node (generate_thread_node tid s) s

/-- dequeue_thread, src/queue.c lines 189-197: remove (and free) the front
waiter, reset rear to NULL if the list became empty, decrement
count_waiting. -/
def dequeue_thread (s : QState α) : QState α :=
  { s with waiters := s.waiters.tail,
           t_rear_null := if s.waiters.tail = [] then true else s.t_rear_null,
           count_waiting := s.count_waiting - 1 }

/-- release_all_data_nodes, src/queue.c lines 74-84: free the whole data
chain, reset rear and all data counters. -/
def release_all_data_nodes (s : QState α) : QState α :=
  { s with items := [], d_rear_null := true, size := 0,
           count_visited := 0, count_enqueued := 0 }

/-- One iteration of the dismantle loop body in dismantle_thread_queue,
src/queue.c lines 88-91: mark the front waiter terminated and cnd_signal
its condition variable.  The loop body never advances the front pointer
itself; only a woken consumer (dequeue lines 141-145) could, and it cannot
run because the signalling thread holds the queue mutex throughout. -/
def dismantle_thread_queue_step (s : QState α) : QState α :=
  match s.waiters with
  | [] => s
  | w :: rest => { s with waiters := { w with is_terminated := true } :: rest }

/-- n iterations of the dismantle loop body. -/
def dismantle_thread_queue_iter : Nat → QState α → QState α
  | 0, s => s
  | n + 1, s => dismantle_thread_queue_iter n (dismantle_thread_queue_step s)

/-- The exit code of dismantle_thread_queue, src/queue.c lines 92-93,
reached only once the loop guard front != NULL fails, i.e. only from a
state with no waiters. -/
def dismantle_thread_queue_exit (s : QState α) : QState α :=
  { s with t_rear_null := true, count_waiting := 0 }

/-- A completed destroyQueue call, src/queue.c lines 66-72: only possible
when the waiter list is empty on entry (otherwise the dismantle loop never
terminates, see the C8 development below). -/
def destroyQueue (s : QState α) : QState α :=
  dismantle_thread_queue_exit (release_all_data_nodes s)

/-- The guard of src/queue.c line 146:
data_in_queue.front && fetch_first_thread_wait_condition() <= front->data_index. -/
def dequeue_wake_guard (tid : Nat) (s : QState α) : Bool :=
  match s.items with
  | [] => false
  | n :: _ => decide (fetch_first_thread_wait_condition tid s.waiters ≤ n.data_index)

/-- The atomic region a consumer blocked in dequeue executes when it wakes
from cnd_wait (src/queue.c lines 141-149 followed by the loop condition of
line 137): with no destroyQueue in flight is_terminated is false on every
record, so lines 141-145 do not run; the consumer pops the front waiter if
the line-146 guard holds, re-evaluates should_thread_wait, and either
registers a fresh ThreadNode and waits again (line 138, result none) or
exits the loop and removes the head item (lines 151-161, result: the
returned payload). -/
def dequeue_loop_check (tid : Nat) (s : QState α) : QState α × Option α :=
  if should_thread_wait tid s then (enqueue_thread tid s, none)
  else
    match s.items with
    | [] => (s, none)
    | n :: _ => (remove_front_data_node s, some n.data_pointer)

def dequeue_resume (tid : Nat) (s : QState α) : QState α × Option α :=
  dequeue_loop_check tid (if dequeue_wake_guard tid s then dequeue_thread s else s)

/-- Whether a consumer thread in the C9 scenario is still inside its
dequeue call (parked in cnd_wait) or has returned from dequeue. -/
inductive CPhase where
  | waiting
  | done
deriving DecidableEq, Repr

/-- Global state of the C9 fairness scenario: the queue state plus the
status of the two blocked consumers (thread ids 1 and 2) and the order in
which dequeue calls have returned. -/
structure CState where
  q : QState Nat
  c1 : CPhase
  c2 : CPhase
  retOrder : List Nat
deriving DecidableEq, Repr

/-- Effect of consumer 1 waking from cnd_wait and running one iteration of
the dequeue loop. -/
def wake1Post (s : CState) : CState :=
  { q := (dequeue_resume 1 s.q).1,
    c1 := if (dequeue_resume 1 s.q).2.isSome then CPhase.done else CPhase.waiting,
    c2 := s.c2,
    retOrder := if (dequeue_resume 1 s.q).2.isSome then s.retOrder ++ [1] else s.retOrder }

/-- Effect of consumer 2 waking from cnd_wait and running one iteration of
the dequeue loop. -/
def wake2Post (s : CState) : CState :=
  { q := (dequeue_resume 2 s.q).1,
    c1 := s.c1,
    c2 := if (dequeue_resume 2 s.q).2.isSome then CPhase.done else CPhase.waiting,
    retOrder := if (dequeue_resume 2 s.q).2.isSome then s.retOrder ++ [2] else s.retOrder }

/-- Interleaving steps available after the C9 scenario prefix: any consumer
still inside dequeue may wake (covering both the cnd_signal of the
producer, which targets the condition variable of the front waiter, and
spurious wakeups,
which C11 cnd_wait permits for any waiter at any time).  Allowing every
waiting consumer to wake at every moment over-approximates the real
schedules, so a property of all reachable states here holds in every real
interleaving. -/
inductive CStep : CState → CState → Prop where
  | wake1 (s : CState) : s.c1 = CPhase.waiting → CStep s (wake1Post s)
  | wake2 (s : CState) : s.c2 = CPhase.waiting → CStep s (wake2Post s)

/-- Reflexive-transitive closure of CStep. -/
inductive CReach : CState → CState → Prop where
  | refl (s : CState) : CReach s s
  | tail {a b c : CState} : CReach a b → CStep b c → CReach a c

/-- Start state of the C9 scenario, built by the operations of the queue itself:
from a fresh queue, consumer 1 registers and parks (empty queue, so
should_thread_wait held), then consumer 2 does the same, then a producer
enqueues one item; the signal of the producer goes to the front waiter.
Records:
consumer 1 has wait_condition 0, consumer 2 has wait_condition 1; the item
has data_index 0. -/
def c9Start : CState :=
  { q := enqueue 100 (enqueue_thread 2 (enqueue_thread 1 (initQueue Nat))),
    c1 := CPhase.waiting, c2 := CPhase.waiting, retOrder := [] }

/-- A waiter record belonging to consumer 2 with an admission threshold
that the single enqueued item (data_index 0) can never satisfy. -/
abbrev tid2Rec (w : ThreadNode) : Prop := w.thread_id = 2 ∧ 1 ≤ w.wait_condition

/-- C9 scenario invariant, phase A: consumer 1 has not yet taken the item.
The single item is still present, the original record of consumer 1 (threshold
0) is at the front of the waiter list, and every record behind it belongs
to consumer 2 with threshold at least 1. -/
abbrev C9InvA (s : CState) : Prop :=
  s.c1 = CPhase.waiting ∧ s.c2 = CPhase.waiting ∧ s.retOrder = [] ∧
  s.q.items = [{ data_index := 0, data_pointer := 100 }] ∧
  s.q.size = 1 ∧ s.q.count_enqueued = 1 ∧
  ∃ rest, s.q.waiters = { thread_id := 1, is_terminated := false, wait_condition := 0 } :: rest ∧
    rest ≠ [] ∧ (∀ w ∈ rest, tid2Rec w) ∧ s.q.count_waiting = rest.length + 1

/-- C9 scenario invariant, phase B: consumer 1 has taken the item and
returned; consumer 2 is still parked and every remaining record belongs to
consumer 2 with threshold at least 1, while the data queue is empty. -/
abbrev C9InvB (s : CState) : Prop :=
  s.c1 = CPhase.done ∧ s.c2 = CPhase.waiting ∧ s.retOrder = [1] ∧
  s.q.items = [] ∧ s.q.size = 0 ∧ s.q.count_enqueued = 1 ∧
  s.q.waiters ≠ [] ∧ (∀ w ∈ s.q.waiters, tid2Rec w) ∧
  s.q.count_waiting = s.q.waiters.length

/-- C9 scenario invariant. -/
abbrev C9Inv (s : CState) : Prop := C9InvA s ∨ C9InvB s

/-- Data-queue state of the src/unnamed/part_000 variant (struct
DataQueue, part_000 lines 29-37). -/
structure P0State (α : Type) where
  items : List (DataNode α)
  rear_null : Bool
  size_of_queue : Nat
  num_visited_elements : Nat
  num_enqueued_elements : Nat
deriving DecidableEq, Repr

/-- part_000 initQueue (lines 58-69), data-queue part. -/
def p0_initQueue (α : Type) : P0State α :=
  { items := [], rear_null := true, size_of_queue := 0,
    num_visited_elements := 0, num_enqueued_elements := 0 }

/-- part_000 new_data_element (lines 120-127): the index comes from
atomic_fetch_add(num_enqueued_elements, 1) — a first increment of the
counter. -/
def p0_new_data_element (x : α) (s : P0State α) : DataNode α × P0State α :=
  ({ data_index := (s.num_enqueued_elements : Int), data_pointer := x },
   { s with num_enqueued_elements := s.num_enqueued_elements + 1 })

/-- part_000 queue_to_empty_data_queue (lines 134-140): note the second
atomic_fetch_add(num_enqueued_elements, 1) on line 139. -/
def p0_queue_to_empty_data_queue (n : DataNode α) (s : P0State α) : P0State α :=
  { s with items := [n], rear_null := false,
           size_of_queue := s.size_of_queue + 1,
           num_enqueued_elements := s.num_enqueued_elements + 1 }

/-- part_000 queue_to_non_empty_data_queue (lines 142-148): again a second
atomic_fetch_add(num_enqueued_elements, 1) on line 147. -/
def p0_queue_to_non_empty_data_queue (n : DataNode α) (s : P0State α) : P0State α :=
  { s with items := s.items ++ [n], rear_null := false,
           size_of_queue := s.size_of_queue + 1,
           num_enqueued_elements := s.num_enqueued_elements + 1 }

/-- part_000 queue_data_element (lines 129-132). -/
def p0_queue_data_element (n : DataNode α) (s : P0State α) : P0State α :=
  if s.size_of_queue = 0 then p0_queue_to_empty_data_queue n s
  else p0_queue_to_non_empty_data_queue n s

/-- part_000 enqueue (lines 107-118), locked region. -/
def p0_enqueue (x : α) (s : P0State α) : P0State α :=
  p0_queue_data_element (p0_new_data_element x s).1 (p0_new_data_element x s).2

/-- Wake action of the src/unnamed/part_001 variant, which uses one shared
condition variable queue_not_empty for all blocked consumers. -/
inductive P1Wake where
  | noWake
  | signalOne
  | broadcastNotEmpty
deriving DecidableEq, Repr

/-- State of the src/unnamed/part_001 variant (globals, lines 11-17). -/
structure P1State (α : Type) where
  items : List α
  rear_null : Bool
  queue_size : Nat
  queue_waiting : Nat
  queue_visited : Nat
deriving DecidableEq, Repr

/-- part_001 enqueue (lines 46-63), successful-allocation path: append the
node and unconditionally cnd_broadcast the shared queue_not_empty condition
variable, waking every blocked consumer. -/
def p1_enqueue (x : α) (s : P1State α) : P1State α × P1Wake :=
  (if s.rear_null then
    { s with items := [x], rear_null := false, queue_size := s.queue_size + 1 }
   else
    { s with items := s.items ++ [x], rear_null := false, queue_size := s.queue_size + 1 },
   P1Wake.broadcastNotEmpty)

/-- Structural well-formedness of the data queue: the size counter counts
the chain nodes and the rear pointer is NULL exactly when the chain is
empty. -/
abbrev DataInv (s : QState α) : Prop :=
  s.size = s.items.length ∧ (s.d_rear_null = true ↔ s.items = [])

/-- One completed queue operation observed at a quiescent point, executed
by thread tid: initQueue, the locked region of enqueue, a non-suspending
dequeue, tryDequeue, or a completed destroyQueue (which requires an empty
waiter list, since the dismantle loop of lines 88-91 only terminates with
front == NULL). -/
inductive Step (tid : Nat) : QState α → QState α → Prop where
  | init (s : QState α) : Step tid s (initQueue α)
  | enq (x : α) (s : QState α) : Step tid s (enqueue x s)
  | deq (s s' : QState α) (x : α) : dequeue tid s = some (x, s') → Step tid s s'
  | tdeq (s : QState α) : Step tid s (tryDequeue s).2
  | destroy (s : QState α) : s.waiters = [] → Step tid s (destroyQueue s)

/-- Fold of the locked region of enqueue over a list of payloads
(first element enqueued first). -/
def enqueueAll (xs : List α) (s : QState α) : QState α :=
  xs.foldl (fun t x => enqueue x t) s

/-- n consecutive dequeue calls by thread tid, collecting the returned
payloads in call order; stops early if a call would suspend. -/
def dequeueAll (tid : Nat) : Nat → QState α → List α × QState α
  | 0, s => ([], s)
  | n + 1, s =>
    match dequeue tid s with
    | some (x, s') =>
      ((x :: (dequeueAll tid n s').1), (dequeueAll tid n s').2)
    | none => ([], s)

/-- C4 scenario: state after init; enqueue(10); enqueue(20). -/
def c4AfterEnqueues : QState Nat := enqueue 20 (enqueue 10 (initQueue Nat))

/-- C4 scenario: result of the dequeue() call. -/
def c4DequeueResult : Option (Nat × QState Nat) := dequeue 0 c4AfterEnqueues

/-- C4 scenario: state after the dequeue() call. -/
def c4AfterDequeue : QState Nat := ((c4DequeueResult.map Prod.snd).getD c4AfterEnqueues)

/-- C4 scenario: state after the first tryDequeue() call. -/
def c4AfterTry1 : QState Nat := (tryDequeue c4AfterDequeue).2

/-- C8 scenario: a fresh queue in which the single consumer (thread id 1)
has registered its WaitRecord and parked in cnd_wait, at the moment
destroyQueue acquires the lock and enters the dismantle loop. -/
def c8Blocked : QState Nat := enqueue_thread 1 (initQueue Nat)

theorem enqueue_fields (x : α) (s : QState α) :
    (enqueue x s).waiters = s.waiters ∧
    (enqueue x s).count_waiting = s.count_waiting ∧
    (enqueue x s).count_enqueued = s.count_enqueued + 1 ∧
    (enqueue x s).size = s.size + 1 ∧
    (enqueue x s).count_visited = s.count_visited ∧
    (enqueue x s).t_rear_null = s.t_rear_null ∧
    (enqueue x s).d_rear_null = false := by
  unfold enqueue insert_data_node generate_data_node
    insert_into_empty_data_queue insert_into_filled_data_queue
  split
  · exact ⟨rfl, rfl, rfl, rfl, rfl, rfl, rfl⟩
  · exact ⟨rfl, rfl, rfl, rfl, rfl, rfl, rfl⟩

theorem enqueue_items (x : α) (s : QState α) (h : s.size = s.items.length) :
    (enqueue x s).items
      = s.items ++ [{ data_index := (s.count_enqueued : Int), data_pointer := x }] := by
  unfold enqueue insert_data_node generate_data_node
    insert_into_empty_data_queue insert_into_filled_data_queue
  split
  next h0 =>
    have hs : s.size = 0 := h0
    have hnil : s.items = [] := by
      cases hl : s.items with
      | nil => rfl
      | cons a l => rw [hl, List.length_cons] at h; omega
    rw [hnil]
    rfl
  next => rfl

theorem fetch_first_not_found (tid : Nat) (l : List ThreadNode)
    (h : ∀ w ∈ l, w.thread_id ≠ tid) :
    fetch_first_thread_wait_condition tid l = -1 := by
  induction l with
  | nil => rfl
  | cons w rest ih =>
    unfold fetch_first_thread_wait_condition
    rw [if_neg (h w (List.mem_cons_self w rest))]
    exact ih (fun v hv => h v (List.mem_cons_of_mem w hv))

/-- Claim C1: in dequeue the decision to suspend (should_thread_wait,
src/queue.c lines 164-173) is the exact negation of the eligibility
rule: under the size invariant the caller proceeds if and only if the item
list is non-empty and (the waiter count is at most the item count, or the
admission threshold of the caller itself — the -1 sentinel of
fetch_first_thread_wait_condition when the caller has no WaitRecord — is at
most the sequence number of the head item). -/
theorem dequeue_wait_negates_eligibility (tid : Nat) (s : QState α)
    (h : s.size = s.items.length) :
    (should_thread_wait tid s = false ↔
      ∃ n rest, s.items = n :: rest ∧
        (s.count_waiting ≤ s.size ∨
          fetch_first_thread_wait_condition tid s.waiters ≤ n.data_index)) ∧
    ((∀ w ∈ s.waiters, w.thread_id ≠ tid) →
      fetch_first_thread_wait_condition tid s.waiters = -1) := by
  refine ⟨?_, fetch_first_not_found tid s.waiters⟩
  unfold should_thread_wait
  by_cases h0 : s.size = 0
  · rw [if_pos h0]
    have hnil : s.items = [] := by
      cases hl : s.items with
      | nil => rfl
      | cons a l => rw [hl, List.length_cons] at h; omega
    simp only [hnil]
    constructor
    · intro hfalse; cases hfalse
    · rintro ⟨n, rest, hcons, -⟩; cases hcons
  · rw [if_neg h0]
    obtain ⟨n, rest, hcons⟩ : ∃ n rest, s.items = n :: rest := by
      cases hl : s.items with
      | nil => rw [hl, List.length_nil] at h; exact absurd h h0
      | cons a l => exact ⟨a, l, rfl⟩
    by_cases h1 : s.count_waiting ≤ s.size
    · rw [if_pos h1]
      exact ⟨fun _ => ⟨n, rest, hcons, Or.inl h1⟩, fun _ => rfl⟩
    · rw [if_neg h1]
      rw [hcons]
      have hred : (match n :: rest with
          | [] => true
          | m :: _ => decide (fetch_first_thread_wait_condition tid s.waiters > m.data_index))
          = decide (fetch_first_thread_wait_condition tid s.waiters > n.data_index) := rfl
      rw [hred]
      constructor
      · intro hdec
        refine ⟨n, rest, rfl, Or.inr ?_⟩
        have := of_decide_eq_false hdec
        omega
      · rintro ⟨n', rest', hcons', hor⟩
        injection hcons' with hn hr
        subst hn
        rcases hor with hor | hor
        · exact absurd hor h1
        · exact decide_eq_false (by omega)

/-- Claim C2: registering a WaitRecord (enqueue_thread, src/queue.c lines
184-187 with generate_thread_node lines 219-227) stores
count_enqueued + count_waiting, both read at registration time, as the new
admission threshold of the record, and appends the record at the tail of the
waiter list. -/
theorem register_waiter_threshold_and_append (tid : Nat) (s : QState α)
    (h : s.count_waiting = s.waiters.length) :
    (enqueue_thread tid s).waiters
      = s.waiters ++ [{ thread_id := tid, is_terminated := false,
                        wait_condition := ((s.count_enqueued + s.count_waiting : Nat) : Int) }] ∧
    (enqueue_thread tid s).count_waiting = s.count_waiting + 1 := by
  unfold enqueue_thread insert_thread_node generate_thread_node
    insert_into_empty_thread_queue insert_into_filled_thread_queue
  split
  next h0 =>
    have h0' : s.count_waiting = 0 := h0
    have hnil : s.waiters = [] := by
      rw [h0'] at h
      cases hl : s.waiters with
      | nil => rfl
      | cons a l => rw [hl, List.length_cons] at h; omega
    rw [hnil]
    exact ⟨rfl, rfl⟩
  next => exact ⟨rfl, rfl⟩

/-- Claim C3 (code bug in src/unnamed/part_000): a single enqueue from a
fresh queue increments num_enqueued_elements twice — once in
new_data_element (line 125, atomic_fetch_add) and once more in
queue_to_empty_data_queue (line 139) — so enqueued_total - dequeued_total
is 2 while size() is 1, violating the conservation law the claim states.
The main implementation src/queue.c increments count_enqueued exactly once
per enqueue (line 111 only). -/
theorem p0_enqueue_counter_divergence :
    (p0_enqueue 5 (p0_initQueue Nat)).num_enqueued_elements = 2 ∧
    (p0_enqueue 5 (p0_initQueue Nat)).size_of_queue = 1 ∧
    (p0_enqueue 5 (p0_initQueue Nat)).num_visited_elements = 0 ∧
    (p0_enqueue 5 (p0_initQueue Nat)).num_enqueued_elements
        - (p0_enqueue 5 (p0_initQueue Nat)).num_visited_elements
      ≠ (p0_enqueue 5 (p0_initQueue Nat)).size_of_queue := by
  decide

/-- Claim C4: the concrete single-threaded scenario init(); enqueue(A);
enqueue(B); dequeue(); tryDequeue(); tryDequeue() with A = 10, B = 20:
dequeue returns A, the first tryDequeue returns B with found, the second
tryDequeue reports not found, and afterwards size() = 0 and visited() = 2. -/
theorem concrete_scenario_run :
    c4DequeueResult.map Prod.fst = some 10 ∧
    (tryDequeue c4AfterDequeue).1 = some 20 ∧
    (tryDequeue c4AfterTry1).1 = none ∧
    (tryDequeue c4AfterTry1).2.size = 0 ∧
    (tryDequeue c4AfterTry1).2.count_visited = 2 := by
  decide

/-- Claim C6: tryDequeue on a state whose item list is empty reports not
found and returns the state completely unchanged (no item removed, no
counter modified, no WaitRecord created), so size() afterwards equals
size() before. -/
theorem tryDequeue_empty_is_noop (s : QState α) (h : s.items = []) :
    tryDequeue s = (none, s) := by
  unfold tryDequeue
  by_cases h0 : s.size = 0
  · rw [if_pos h0]
  · rw [if_neg h0, h]

/-- Claim C7, amended: in src/queue.c every enqueue that observes at least
one waiter cnd_signals exactly the condition variable of the ThreadNode at
the front of the waiter list (lines 102-104); it never signals any other
waiter and never broadcasts.  (The src/unnamed/part_001 variant instead
broadcasts one shared condition variable, see the counterexample below.) -/
theorem enqueue_signals_front_waiter_only (x : α) (s : QState α)
    (h : s.count_waiting = s.waiters.length) :
    enqueue_signal_decision (enqueue x s)
      = (match s.waiters with
         | [] => WakeAction.noWake
         | w :: _ => WakeAction.signalFront w) ∧
    enqueue_signal_decision (enqueue x s) ≠ WakeAction.broadcastAll := by
  obtain ⟨hw, hcw, -, hsz, -, -, -⟩ := enqueue_fields x s
  have hmain : enqueue_signal_decision (enqueue x s)
      = (match s.waiters with
         | [] => WakeAction.noWake
         | w :: _ => WakeAction.signalFront w) := by
    unfold enqueue_signal_decision
    rw [hw, hcw, hsz]
    cases hws : s.waiters with
    | nil =>
      rw [if_neg]
      rw [hws, List.length_nil] at h
      intro hc
      rw [h] at hc
      exact absurd hc.2 (by omega)
    | cons w rest =>
      rw [if_pos]
      constructor
      · omega
      · rw [h, hws, List.length_cons]
        omega
  refine ⟨hmain, ?_⟩
  rw [hmain]
  cases s.waiters with
  | nil => intro hc; cases hc
  | cons w rest => intro hc; cases hc

/-- Claim C7, counterexample to the claim as stated: the enqueue of
src/unnamed/part_001 (lines 46-63) executes cnd_broadcast(queue_not_empty)
— a broadcast wake of all waiters on the single shared condition variable —
here from a state with two blocked consumers, contradicting the claim that
no enqueue step ever performs a broadcast wake. -/
theorem p1_enqueue_broadcasts :
    (p1_enqueue 7 { items := [], rear_null := true, queue_size := 0,
                    queue_waiting := 2, queue_visited := 0 }).2
      = P1Wake.broadcastNotEmpty := by
  rfl

theorem dismantle_iter_waiters_length (n : Nat) (s : QState α) :
    (dismantle_thread_queue_iter n s).waiters.length = s.waiters.length := by
  induction n generalizing s with
  | zero => rfl
  | succ n ih =>
    show (dismantle_thread_queue_iter n (dismantle_thread_queue_step s)).waiters.length
        = s.waiters.length
    rw [ih]
    unfold dismantle_thread_queue_step
    cases hws : s.waiters with
    | nil => simp [hws]
    | cons w rest => simp

/-- Claim C8 (code bug): with one consumer blocked in dequeue, the
dismantle loop of destroyQueue (src/queue.c lines 88-91) never terminates:
its body marks and signals the front waiter but never advances the front
pointer, and only the woken consumer could remove itself — which it cannot,
because destroyQueue holds the queue mutex for the whole loop, so cnd_wait
can never re-acquire it.  After any number n of loop iterations the waiter
list still has its one record, so the loop guard front != NULL stays true
forever, destroyQueue never completes, and waiting() never reads 0. -/
theorem destroyQueue_livelocks_with_blocked_consumer :
    ∀ n : Nat, (dismantle_thread_queue_iter n c8Blocked).waiters.length = 1 ∧
      (dismantle_thread_queue_iter n c8Blocked).waiters ≠ [] := by
  intro n
  have hlen : (dismantle_thread_queue_iter n c8Blocked).waiters.length = 1 := by
    rw [dismantle_iter_waiters_length]
    rfl
  refine ⟨hlen, ?_⟩
  intro hnil
  rw [hnil] at hlen
  exact absurd hlen (by simp)

theorem should_thread_wait_eq_false (tid : Nat) (s : QState α) (h0 : ¬s.size = 0)
    (hw : s.count_waiting ≤ s.size) : should_thread_wait tid s = false := by
  unfold should_thread_wait
  rw [if_neg h0, if_pos hw]

theorem dequeue_takes_head (tid : Nat) (s : QState α) (n : DataNode α)
    (rest : List (DataNode α)) (hitems : s.items = n :: rest) (h0 : ¬s.size = 0)
    (hw : s.count_waiting ≤ s.size) :
    dequeue tid s = some (n.data_pointer, remove_front_data_node s) := by
  unfold dequeue
  rw [should_thread_wait_eq_false tid s h0 hw]
  simp only [Bool.false_eq_true, if_false]
  rw [hitems]

theorem dequeue_eq_some_elim {tid : Nat} {s s' : QState α} {x : α}
    (h : dequeue tid s = some (x, s')) :
    should_thread_wait tid s = false ∧
    ∃ n rest, s.items = n :: rest ∧ x = n.data_pointer ∧ s' = remove_front_data_node s := by
  unfold dequeue at h
  cases hb : should_thread_wait tid s with
  | true => rw [hb] at h; simp at h
  | false =>
    rw [hb] at h
    simp only [Bool.false_eq_true, if_false] at h
    cases hitems : s.items with
    | nil => rw [hitems] at h; cases h
    | cons n rest =>
      rw [hitems] at h
      injection h with h2
      injection h2 with hx hs'
      exact ⟨rfl, n, rest, rfl, hx.symm, hs'.symm⟩

theorem enqueueAll_spec (xs : List α) (s : QState α) (h : s.size = s.items.length) :
    (enqueueAll xs s).items.map (fun n => n.data_pointer)
        = s.items.map (fun n => n.data_pointer) ++ xs ∧
    (enqueueAll xs s).size = (enqueueAll xs s).items.length ∧
    (enqueueAll xs s).count_waiting = s.count_waiting := by
  induction xs generalizing s with
  | nil => exact ⟨by simp [enqueueAll], h, rfl⟩
  | cons x xs ih =>
    obtain ⟨-, hcw, -, hsz, -, -, -⟩ := enqueue_fields x s
    have hit := enqueue_items x s h
    have h' : (enqueue x s).size = (enqueue x s).items.length := by
      rw [hsz, hit, List.length_append, h]
      rfl
    have hstep : enqueueAll (x :: xs) s = enqueueAll xs (enqueue x s) := rfl
    obtain ⟨ih1, ih2, ih3⟩ := ih (enqueue x s) h'
    refine ⟨?_, by rw [hstep]; exact ih2, by rw [hstep, ih3, hcw]⟩
    rw [hstep, ih1, hit]
    simp

theorem dequeueAll_drains (tid : Nat) (l : List (DataNode α)) (s : QState α)
    (hitems : s.items = l) (hsz : s.size = l.length) (hw : s.count_waiting = 0) :
    (dequeueAll tid l.length s).1 = l.map (fun n => n.data_pointer) := by
  induction l generalizing s with
  | nil => rfl
  | cons n rest ih =>
    have h0 : ¬s.size = 0 := by rw [hsz]; simp
    have hdq := dequeue_takes_head tid s n rest hitems h0 (by rw [hw]; omega)
    have hred : dequeueAll tid (n :: rest).length s
        = ((n.data_pointer :: (dequeueAll tid rest.length (remove_front_data_node s)).1),
           (dequeueAll tid rest.length (remove_front_data_node s)).2) := by
      show dequeueAll tid (rest.length + 1) s = _
      simp only [dequeueAll]
      rw [hdq]
    rw [hred]
    have hit' : (remove_front_data_node s).items = rest := by
      show s.items.tail = rest
      rw [hitems]
      rfl
    have hsz' : (remove_front_data_node s).size = rest.length := by
      show s.size - 1 = rest.length
      rw [hsz, List.length_cons]
      omega
    have hw' : (remove_front_data_node s).count_waiting = 0 := hw
    rw [ih (remove_front_data_node s) hit' hsz' hw']
    rfl

/-- Claim C5: FIFO single-consumer property — for every payload list
E1..En, running n enqueues followed by n dequeues on one consumer thread
from a fresh queue returns the payloads in exactly the order E1..En. -/
theorem fifo_single_consumer (α : Type) (tid : Nat) (xs : List α) :
    (dequeueAll tid xs.length (enqueueAll xs (initQueue α))).1 = xs := by
  obtain ⟨h1, h2, h3⟩ := enqueueAll_spec xs (initQueue α) rfl
  have hlen : (enqueueAll xs (initQueue α)).items.length = xs.length := by
    have := congrArg List.length h1
    simpa [initQueue] using this
  rw [← hlen]
  rw [dequeueAll_drains tid (enqueueAll xs (initQueue α)).items
        (enqueueAll xs (initQueue α)) rfl h2 h3]
  simpa using h1

theorem remove_front_data_inv (s : QState α) (n : DataNode α)
    (rest : List (DataNode α)) (h : DataInv s) (hitems : s.items = n :: rest) :
    DataInv (remove_front_data_node s) := by
  obtain ⟨h1, h2⟩ := h
  constructor
  · show s.size - 1 = s.items.tail.length
    rw [hitems] at h1 ⊢
    rw [List.length_cons] at h1
    simp only [List.tail_cons]
    omega
  · show (if s.items.tail.isEmpty then true else s.d_rear_null) = true ↔ s.items.tail = []
    rw [hitems]
    simp only [List.tail_cons]
    cases rest with
    | nil => simp
    | cons m r =>
      have hdr : s.d_rear_null = false := by
        cases hd : s.d_rear_null
        · rfl
        · exact absurd (h2.mp hd) (by rw [hitems]; simp)
      simp [hdr]

/-- Claim C10: every completed operation (init, enqueue, non-suspending
dequeue, tryDequeue, completed destroyQueue) preserves the structural
invariant of the item list: the size counter counts the chain and is zero
exactly when the front pointer is NULL, which holds exactly when the rear
pointer is NULL (the rear pointer being reset to NULL whenever a removal
empties the list). -/
theorem step_preserves_data_list_invariant (tid : Nat) (s s' : QState α)
    (h : DataInv s) (hs : Step tid s s') :
    DataInv s' ∧ (s'.size = 0 ↔ s'.items = []) ∧ (s'.items = [] ↔ s'.d_rear_null = true) := by
  have key : DataInv s' := by
    cases hs with
    | init => exact ⟨rfl, by simp [initQueue]⟩
    | enq x s =>
      obtain ⟨-, -, -, hsz, -, -, hdr⟩ := enqueue_fields x s
      constructor
      · rw [hsz, enqueue_items x s h.1, List.length_append, h.1]
        rfl
      · rw [hdr, enqueue_items x s h.1]
        simp
    | deq s s' x hdq =>
      obtain ⟨-, n, rest, hitems, -, hs'⟩ := dequeue_eq_some_elim hdq
      rw [hs']
      exact remove_front_data_inv s n rest h hitems
    | tdeq s =>
      unfold tryDequeue
      by_cases h0 : s.size = 0
      · rw [if_pos h0]
        exact h
      · rw [if_neg h0]
        cases hitems : s.items with
        | nil =>
          obtain ⟨ha, -⟩ := h
          rw [hitems, List.length_nil] at ha
          exact absurd ha h0
        | cons n rest => exact remove_front_data_inv s n rest h hitems
    | destroy s hw => exact ⟨rfl, by simp [destroyQueue, dismantle_thread_queue_exit,
        release_all_data_nodes]⟩
  refine ⟨key, ⟨?_, ?_⟩, key.2.symm⟩
  · intro h0
    rw [key.1] at h0
    exact List.eq_nil_of_length_eq_zero h0
  · intro h0
    rw [key.1, h0]
    rfl

theorem fetch_first_all_tid2 (l : List ThreadNode) (h : ∀ w ∈ l, tid2Rec w)
    (hne : l ≠ []) : 1 ≤ fetch_first_thread_wait_condition 2 l := by
  cases l with
  | nil => exact absurd rfl hne
  | cons w rest =>
    unfold fetch_first_thread_wait_condition
    rw [if_pos (h w (List.mem_cons_self w rest)).1]
    exact (h w (List.mem_cons_self w rest)).2

theorem fetch_first_tid1_all_tid2 (l : List ThreadNode) (h : ∀ w ∈ l, tid2Rec w) :
    fetch_first_thread_wait_condition 1 l = -1 := by
  apply fetch_first_not_found
  intro w hw
  rw [(h w hw).1]
  omega

theorem enqueue_thread_filled (tid : Nat) (s : QState α) (h0 : ¬s.count_waiting = 0) :
    enqueue_thread tid s
      = { s with waiters := s.waiters ++ [generate_thread_node tid s],
                 t_rear_null := false,
                 count_waiting := s.count_waiting + 1 } := by
  unfold enqueue_thread insert_thread_node
  rw [if_neg h0]
  rfl

theorem resume1_from_A (q : QState Nat) (rest : List ThreadNode)
    (hwt : q.waiters = { thread_id := 1, is_terminated := false, wait_condition := 0 } :: rest)
    (h2 : ∀ w ∈ rest, tid2Rec w)
    (hitems : q.items = [{ data_index := 0, data_pointer := 100 }])
    (hsz : q.size = 1) :
    dequeue_resume 1 q = (remove_front_data_node (dequeue_thread q), some 100) := by
  have hg : dequeue_wake_guard 1 q = true := by
    unfold dequeue_wake_guard
    rw [hitems, hwt]
    rfl
  have hsw : should_thread_wait 1 (dequeue_thread q) = false := by
    unfold should_thread_wait
    rw [show (dequeue_thread q).size = q.size from rfl, hsz]
    rw [if_neg (by omega : ¬(1 : Nat) = 0)]
    by_cases hr : (dequeue_thread q).count_waiting ≤ 1
    · rw [if_pos hr]
    · rw [if_neg hr]
      rw [show (dequeue_thread q).items = q.items from rfl, hitems]
      show decide (fetch_first_thread_wait_condition 1 (dequeue_thread q).waiters > (0 : Int))
          = false
      rw [show (dequeue_thread q).waiters = q.waiters.tail from rfl, hwt]
      rw [show ({ thread_id := 1, is_terminated := false, wait_condition := 0 } :: rest
            : List ThreadNode).tail = rest from rfl]
      rw [fetch_first_tid1_all_tid2 rest h2]
      rfl
  unfold dequeue_resume
  rw [hg]
  rw [show (if true = true then dequeue_thread q else q) = dequeue_thread q from rfl]
  unfold dequeue_loop_check
  rw [hsw]
  rw [show (dequeue_thread q).items = q.items from rfl, hitems]
  rfl

theorem resume2_from_A (q : QState Nat) (rest : List ThreadNode)
    (hwt : q.waiters = { thread_id := 1, is_terminated := false, wait_condition := 0 } :: rest)
    (hrest : rest ≠ []) (h2 : ∀ w ∈ rest, tid2Rec w)
    (hitems : q.items = [{ data_index := 0, data_pointer := 100 }])
    (hsz : q.size = 1) (hcw : q.count_waiting = rest.length + 1) :
    dequeue_resume 2 q = (enqueue_thread 2 q, none) := by
  have hf : 1 ≤ fetch_first_thread_wait_condition 2 q.waiters := by
    rw [hwt]
    unfold fetch_first_thread_wait_condition
    rw [if_neg (by decide :
      ¬({ thread_id := 1, is_terminated := false, wait_condition := 0 } : ThreadNode).thread_id
        = 2)]
    exact fetch_first_all_tid2 rest h2 hrest
  have hg : dequeue_wake_guard 2 q = false := by
    unfold dequeue_wake_guard
    rw [hitems]
    show decide (fetch_first_thread_wait_condition 2 q.waiters ≤ (0 : Int)) = false
    exact decide_eq_false (by omega)
  have hlen : rest.length ≠ 0 := fun hz => hrest (List.eq_nil_of_length_eq_zero hz)
  have hsw : should_thread_wait 2 q = true := by
    unfold should_thread_wait
    rw [hsz]
    rw [if_neg (by omega : ¬(1 : Nat) = 0)]
    rw [if_neg (by rw [hcw]; omega)]
    rw [hitems]
    show decide (fetch_first_thread_wait_condition 2 q.waiters > (0 : Int)) = true
    exact decide_eq_true (by omega)
  unfold dequeue_resume
  rw [hg]
  rw [show (if false = true then dequeue_thread q else q) = q from rfl]
  unfold dequeue_loop_check
  rw [hsw]
  rfl

theorem resume2_from_B (q : QState Nat) (hitems : q.items = []) (hsz : q.size = 0) :
    dequeue_resume 2 q = (enqueue_thread 2 q, none) := by
  have hg : dequeue_wake_guard 2 q = false := by
    unfold dequeue_wake_guard
    rw [hitems]
  have hsw : should_thread_wait 2 q = true := by
    unfold should_thread_wait
    rw [hsz]
    rw [if_pos rfl]
  unfold dequeue_resume
  rw [hg]
  rw [show (if false = true then dequeue_thread q else q) = q from rfl]
  unfold dequeue_loop_check
  rw [hsw]
  rfl

theorem c9_inv_preserved (s s' : CState) (h : C9Inv s) (hs : CStep s s') : C9Inv s' := by
  cases hs with
  | wake1 hph =>
    rcases h with hA | hB
    · obtain ⟨hc1, hc2, hret, hitems, hsz, henq, rest, hwt, hrest, h2, hcw⟩ := hA
      have hres := resume1_from_A s.q rest hwt h2 hitems hsz
      right
      unfold wake1Post
      rw [hres]
      refine ⟨rfl, hc2, ?_, ?_, ?_, henq, ?_, ?_, ?_⟩
      · show s.retOrder ++ [1] = [1]
        rw [hret]
        rfl
      · show s.q.items.tail = []
        rw [hitems]
        rfl
      · show s.q.size - 1 = 0
        rw [hsz]
      · show s.q.waiters.tail ≠ []
        rw [hwt]
        exact hrest
      · show ∀ w ∈ s.q.waiters.tail, tid2Rec w
        rw [hwt]
        exact h2
      · show s.q.count_waiting - 1 = s.q.waiters.tail.length
        rw [hcw, hwt]
        simp
    · obtain ⟨hc1, -⟩ := hB
      rw [hph] at hc1
      cases hc1
  | wake2 hph =>
    rcases h with hA | hB
    · obtain ⟨hc1, hc2, hret, hitems, hsz, henq, rest, hwt, hrest, h2, hcw⟩ := hA
      have hres := resume2_from_A s.q rest hwt hrest h2 hitems hsz hcw
      have hcw0 : ¬s.q.count_waiting = 0 := by rw [hcw]; omega
      have hfill := enqueue_thread_filled 2 s.q hcw0
      left
      unfold wake2Post
      rw [hres]
      refine ⟨hc1, rfl, hret, ?_, ?_, ?_, rest ++ [generate_thread_node 2 s.q], ?_, ?_, ?_, ?_⟩
      · show (enqueue_thread 2 s.q).items = _
        rw [hfill]
        exact hitems
      · show (enqueue_thread 2 s.q).size = 1
        rw [hfill]
        exact hsz
      · show (enqueue_thread 2 s.q).count_enqueued = 1
        rw [hfill]
        exact henq
      · show (enqueue_thread 2 s.q).waiters = _
        rw [hfill]
        show s.q.waiters ++ [generate_thread_node 2 s.q] = _
        rw [hwt]
        rfl
      · simp
      · intro w hw
        rcases List.mem_append.mp hw with hw | hw
        · exact h2 w hw
        · rw [List.mem_singleton.mp hw]
          refine ⟨rfl, ?_⟩
          show (1 : Int) ≤ ((s.q.count_enqueued + s.q.count_waiting : Nat) : Int)
          omega
      · show (enqueue_thread 2 s.q).count_waiting = _
        rw [hfill]
        show s.q.count_waiting + 1 = (rest ++ [generate_thread_node 2 s.q]).length + 1
        rw [hcw, List.length_append]
        rfl
    · obtain ⟨hc1, hc2, hret, hitems, hsz, henq, hne, h2, hcw⟩ := hB
      have hres := resume2_from_B s.q hitems hsz
      have hcw0 : ¬s.q.count_waiting = 0 := by
        rw [hcw]
        intro hz
        exact hne (List.eq_nil_of_length_eq_zero hz)
      have hfill := enqueue_thread_filled 2 s.q hcw0
      right
      unfold wake2Post
      rw [hres]
      refine ⟨hc1, rfl, hret, ?_, ?_, ?_, ?_, ?_, ?_⟩
      · show (enqueue_thread 2 s.q).items = []
        rw [hfill]
        exact hitems
      · show (enqueue_thread 2 s.q).size = 0
        rw [hfill]
        exact hsz
      · show (enqueue_thread 2 s.q).count_enqueued = 1
        rw [hfill]
        exact henq
      · show (enqueue_thread 2 s.q).waiters ≠ []
        rw [hfill]
        simp
      · show ∀ w ∈ (enqueue_thread 2 s.q).waiters, tid2Rec w
        rw [hfill]
        intro w hw
        rcases List.mem_append.mp hw with hw | hw
        · exact h2 w hw
        · rw [List.mem_singleton.mp hw]
          refine ⟨rfl, ?_⟩
          show (1 : Int) ≤ ((s.q.count_enqueued + s.q.count_waiting : Nat) : Int)
          omega
      · show (enqueue_thread 2 s.q).count_waiting = (enqueue_thread 2 s.q).waiters.length
        rw [hfill]
        show s.q.count_waiting + 1 = (s.q.waiters ++ [generate_thread_node 2 s.q]).length
        rw [hcw, List.length_append]
        rfl

theorem c9_start_inv : C9Inv c9Start := by
  left
  refine ⟨rfl, rfl, rfl, by decide, by decide, by decide,
    [{ thread_id := 2, is_terminated := false, wait_condition := 1 }],
    by decide, by decide, by decide, by decide⟩

theorem c9_reach_inv (s : CState) (h : CReach c9Start s) : C9Inv s := by
  induction h with
  | refl => exact c9_start_inv
  | tail hab hbc ih => exact c9_inv_preserved _ _ ih hbc

/-- Claim C9: fairness under contention — consumers 1 and 2 both block in
dequeue on an empty queue, consumer 1 parking strictly before consumer 2,
and exactly one item is then enqueued (state c9Start, built by the own
operations of the queue).  In every interleaving of wakeups from there (the
signal of the producer targets the front waiter, and arbitrary spurious
wakeups are also allowed), the dequeue call of consumer 2 never returns —
in particular it never returns before that of consumer 1 — and the return
order can only be empty or consumer 1 alone; moreover the schedule in
which consumer 1 handles the signal does make the dequeue call of
consumer 1 return with the item. -/
theorem first_parked_consumer_served_first :
    (∀ s, CReach c9Start s →
      s.c2 = CPhase.waiting ∧ (s.retOrder = [] ∨ s.retOrder = [1])) ∧
    (∃ s, CReach c9Start s ∧ s.c1 = CPhase.done ∧ s.retOrder = [1] ∧
      s.c2 = CPhase.waiting) := by
  constructor
  · intro s hr
    rcases c9_reach_inv s hr with hA | hB
    · exact ⟨hA.2.1, Or.inl hA.2.2.1⟩
    · exact ⟨hB.2.1, Or.inr hB.2.2.1⟩
  · refine ⟨wake1Post c9Start,
      CReach.tail (CReach.refl c9Start) (CStep.wake1 c9Start rfl), ?_, ?_, ?_⟩
    · decide
    · decide
    · decide

theorem first_parked_consumer_served_first_witness :
    c9Start.c2 = CPhase.waiting ∧ (c9Start.retOrder = [] ∨ c9Start.retOrder = [1]) :=
  first_parked_consumer_served_first.1 c9Start (CReach.refl c9Start)

theorem dequeue_wait_negates_eligibility_witness :
    (should_thread_wait 0 c4AfterEnqueues = false ↔
      ∃ n rest, c4AfterEnqueues.items = n :: rest ∧
        (c4AfterEnqueues.count_waiting ≤ c4AfterEnqueues.size ∨
          fetch_first_thread_wait_condition 0 c4AfterEnqueues.waiters ≤ n.data_index)) ∧
    ((∀ w ∈ c4AfterEnqueues.waiters, w.thread_id ≠ 0) →
      fetch_first_thread_wait_condition 0 c4AfterEnqueues.waiters = -1) :=
  dequeue_wait_negates_eligibility 0 c4AfterEnqueues (by decide)

theorem register_waiter_threshold_and_append_witness :
    (enqueue_thread 2 c8Blocked).waiters
      = c8Blocked.waiters ++ [{ thread_id := 2, is_terminated := false,
                                wait_condition := ((c8Blocked.count_enqueued
                                  + c8Blocked.count_waiting : Nat) : Int) }] ∧
    (enqueue_thread 2 c8Blocked).count_waiting = c8Blocked.count_waiting + 1 :=
  register_waiter_threshold_and_append 2 c8Blocked (by decide)

theorem fifo_single_consumer_witness :
    (dequeueAll 0 3 (enqueueAll [4, 5, 6] (initQueue Nat))).1 = [4, 5, 6] :=
  fifo_single_consumer Nat 0 [4, 5, 6]

theorem tryDequeue_empty_is_noop_witness :
    tryDequeue (initQueue Nat) = (none, initQueue Nat) :=
  tryDequeue_empty_is_noop (initQueue Nat) rfl

theorem enqueue_signals_front_waiter_only_witness :
    enqueue_signal_decision (enqueue 3 c8Blocked)
      = (match c8Blocked.waiters with
         | [] => WakeAction.noWake
         | w :: _ => WakeAction.signalFront w) ∧
    enqueue_signal_decision (enqueue 3 c8Blocked) ≠ WakeAction.broadcastAll :=
  enqueue_signals_front_waiter_only 3 c8Blocked (by decide)

theorem destroyQueue_livelocks_with_blocked_consumer_witness :
    (dismantle_thread_queue_iter 5 c8Blocked).waiters.length = 1 ∧
    (dismantle_thread_queue_iter 5 c8Blocked).waiters ≠ [] :=
  destroyQueue_livelocks_with_blocked_consumer 5

theorem step_preserves_data_list_invariant_witness :
    DataInv (enqueue 5 (initQueue Nat)) ∧
    ((enqueue 5 (initQueue Nat)).size = 0 ↔ (enqueue 5 (initQueue Nat)).items = []) ∧
    ((enqueue 5 (initQueue Nat)).items = [] ↔ (enqueue 5 (initQueue Nat)).d_rear_null = true) :=
  step_preserves_data_list_invariant 0 (initQueue Nat) (enqueue 5 (initQueue Nat))
    (by decide) (Step.enq 5 (initQueue Nat))
